import Mathlib

/-!
Verification development for the lightning-server chat backend.

The embedding below translates the backend's presence service, the
socket gateway, the messages service and the auth service into pure
Lean functions.  External collaborators (Redis, Postgres, bcrypt, the
JWT signer, uuid generation) are modelled explicitly: time is a `Nat`
parameter, tables are lists, generated ids are passed in as arguments,
and the credential hasher / token signer are function parameters.
-/

namespace LightningServer

/-! ## Presence service

`PresenceService` (presence.service.ts) keeps one Redis hash per user
with fields `status` and `socketId`, and a 60 second TTL set via
`expire`.  We model the hash for a single user as a `PresenceRec`; a
user's key is absent (`none`) when it was never written, and an expired
key reads as absent (`readRec`). -/

structure PresenceRec where
  status : String
  socketId : String
  expireAt : Nat
deriving DecidableEq, Repr

/-- Reading a Redis key at time `now`: a key whose TTL has elapsed
(`expireAt ≤ now`) behaves exactly like an absent key. -/
def readRec (s : Option PresenceRec) (now : Nat) : Option PresenceRec :=
  match s with
  | none => none
  | some r => if now < r.expireAt then some r else none

/-- The store maps user ids to their presence hash. -/
abbrev PresenceState := List (String × PresenceRec)

/-- Write the value of user `k`, replacing an existing entry in place. -/
def setKey : PresenceState → String → PresenceRec → PresenceState
  | [], k, r => [(k, r)]
  | (k', r') :: t, k, r =>
      if k' = k then (k, r) :: t else (k', r') :: setKey t k r

/-- `setOnline(userId, socketId)`: `hset` both fields, then `expire 60`.
The result does not depend on the previous value of the key. -/
def PresenceState.setOnline (m : PresenceState) (userId socketId : String)
    (now : Nat) : PresenceState :=
  setKey m userId { status := "online", socketId := socketId, expireAt := now + 60 }

/-- `setOffline(userId, socketId)`: `hget` the stored `socketId`; only when
it equals the caller's socket id, `hset status offline` (the `socketId`
field is untouched) and `expire 60`.  Otherwise nothing is written. -/
def PresenceState.setOffline (m : PresenceState) (userId socketId : String)
    (now : Nat) : PresenceState :=
  match readRec (m.lookup userId) now with
  | some r =>
      if r.socketId = socketId then
        setKey m userId { status := "offline", socketId := r.socketId, expireAt := now + 60 }
      else m
  | none => m

/-- `getPresence(userId)`: `hget status`, defaulting to `"offline"`. -/
def PresenceState.getPresence (m : PresenceState) (userId : String)
    (now : Nat) : String :=
  match readRec (m.lookup userId) now with
  | some r => r.status
  | none => "offline"

/-! ## Messages service

`MessagesService` (messages.service.ts) over Postgres tables.  Rows are
kept in insertion order; generated uuids are passed in as arguments
(the join-row uuids of `channel_members` and `message_attachments` do
not influence behaviour and are not modelled). -/

structure Message where
  id : String
  channelId : String
  senderId : String
  content : String
  createdAt : Nat
deriving DecidableEq, Repr

structure Channel where
  id : String
  name : String
  isGroup : Bool
  memberIds : List String
deriving DecidableEq, Repr

structure ChannelsDb where
  /-- rows of `channels`: (id, name, is_group) -/
  channels : List (String × String × Bool)
  /-- rows of `channel_members`: (channel_id, user_id) -/
  channelMembers : List (String × String)
deriving DecidableEq, Repr

structure MessagesDb where
  messages : List Message
  /-- rows of `message_attachments`: (message_id, attachment_id) -/
  messageAttachments : List (String × String)
deriving DecidableEq, Repr

/-- `createChannel(name, isGroup, memberIds)`: insert the channel row and
one membership row per member, and return the channel summary. -/
def createChannel (db : ChannelsDb) (channelId name : String) (isGroup : Bool)
    (memberIds : List String) : Channel × ChannelsDb :=
  (⟨channelId, name, isGroup, memberIds⟩,
   { channels := db.channels ++ [(channelId, name, isGroup)],
     channelMembers := db.channelMembers ++ memberIds.map (fun m => (channelId, m)) })

/-- JavaScript `Array.from(new Set(l))`: removes duplicates keeping the
first occurrence of each element, in order. -/
def jsSetDedup : List String → List String
  | [] => []
  | x :: xs => x :: jsSetDedup (xs.filter (fun y => y != x))
termination_by l => l.length
decreasing_by
  simp only [List.length_cons]
  exact Nat.lt_succ_of_le (List.length_filter_le _ _)

/-- `MessagesController.createChannel`: the requesting user's id is
prepended to the body's member list (which may be absent), the result is
deduplicated, and the group flag is `memberIds.length > 2`. -/
def createChannelEndpoint (db : ChannelsDb) (requesterId : String)
    (name : String) (bodyMemberIds : Option (List String))
    (channelId : String) : Channel × ChannelsDb :=
  let memberIds := jsSetDedup (requesterId :: bodyMemberIds.getD [])
  createChannel db channelId name (decide (memberIds.length > 2)) memberIds

/-- `createMessage(channelId, senderId, content, attachmentIds?)`: insert
the message row (`created_at` defaults to `NOW()`), then, when attachment
ids were supplied and nonempty, one join row per attachment id; return
the persisted representation. -/
def createMessage (db : MessagesDb) (messageId channelId senderId content : String)
    (attachmentIds : Option (List String)) (now : Nat) : Message × MessagesDb :=
  let m : Message := ⟨messageId, channelId, senderId, content, now⟩
  let joins :=
    match attachmentIds with
    | some l => l.map (fun a => (messageId, a))
    | none => []
  (m, { messages := db.messages ++ [m],
        messageAttachments := db.messageAttachments ++ joins })

/-- Insert a message into a list sorted by descending `createdAt`. -/
def insertDesc (m : Message) : List Message → List Message
  | [] => [m]
  | x :: xs =>
      if x.createdAt ≤ m.createdAt then m :: x :: xs else x :: insertDesc m xs

/-- `ORDER BY created_at DESC` over the insertion-ordered table (stable:
equal timestamps stay in insertion order). -/
def sortByCreatedAtDesc : List Message → List Message
  | [] => []
  | x :: xs => insertDesc x (sortByCreatedAtDesc xs)

/-- Does the message satisfy the `WHERE` clause of `listMessages`? -/
def listMessagesFilter (channelId : String) (before : Option Nat) (m : Message) : Bool :=
  m.channelId == channelId &&
    (match before with
     | some b => decide (m.createdAt < b)
     | none => true)

/-- `listMessages(channelId, limit = 50, before?)`: rows of the channel,
optionally with `created_at < before`, newest first, at most `limit`. -/
def listMessages (db : MessagesDb) (channelId : String) (limit : Nat)
    (before : Option Nat) : List Message :=
  ((sortByCreatedAtDesc (db.messages.filter (listMessagesFilter channelId before))).take limit)

/-- `MessagesController.listMessages`: the `limit` query parameter
defaults to 50 when absent. -/
def listMessagesEndpoint (db : MessagesDb) (channelId : String)
    (limit : Option Nat) (before : Option Nat) : List Message :=
  listMessages db channelId (limit.getD 50) before

/-! ## Socket gateway

`MessagesGateway` (messages.gateway.ts).  The socket.io server state is
the list of connected socket ids, the per-socket authenticated identity
(`client.data.user`), the room memberships, the presence store and the
messages database.  Each handler returns the new state together with the
list of emitted events; an event records its payload and the exact list
of socket ids it is delivered to. -/

structure SocketUser where
  userId : String
  displayName : String
deriving DecidableEq, Repr

inductive EventPayload where
  | presenceUpdate (userId status : String)
  | typingUpdate (channelId userId : String) (typing : Bool)
  | messageNew (m : Message)
  | channelJoined (channelId : String)
  | channelLeft (channelId : String)
deriving DecidableEq, Repr

structure Emit where
  payload : EventPayload
  recipients : List String
deriving DecidableEq, Repr

structure GwState where
  /-- ids of currently connected sockets -/
  conns : List String
  /-- `client.data.user` per socket id -/
  users : List (String × SocketUser)
  /-- room memberships: (socket id, channel id) -/
  rooms : List (String × String)
  presence : PresenceState
  messagesDb : MessagesDb
deriving DecidableEq, Repr

/-- Transport-level removal of a socket: it leaves the connected set,
its session data and all its room memberships. -/
def disconnectSock (st : GwState) (sid : String) : GwState :=
  { st with
    conns := st.conns.filter (fun c => c != sid),
    users := st.users.filter (fun p => p.1 != sid),
    rooms := st.rooms.filter (fun p => p.1 != sid) }

/-- `handleConnection`: no handshake token, or a token the verifier
rejects, disconnects the client with no other effect.  On success the
identity is attached to the socket, `setOnline` is called, and a
`presence:update online` event is emitted to the connecting socket
alone.  The token verifier is the external JWT collaborator. -/
def handleConnection (st : GwState) (sid : String) (token : Option String)
    (verify : String → Option SocketUser) (now : Nat) : GwState × List Emit :=
  match token with
  | none => (disconnectSock st sid, [])
  | some t =>
      match verify t with
      | none => (disconnectSock st sid, [])
      | some u =>
          ({ st with
             users := (sid, u) :: st.users,
             presence := st.presence.setOnline u.userId sid now },
           [⟨EventPayload.presenceUpdate u.userId "online", [sid]⟩])

/-- `handleDisconnect`: a socket that never authenticated is a no-op for
the handler (only the transport cleanup happens).  Otherwise `setOffline`
runs for the attached user with this socket id and a `presence:update
offline` event goes to every other connected socket
(`client.broadcast.emit`). -/
def handleDisconnect (st : GwState) (sid : String) (now : Nat) : GwState × List Emit :=
  match st.users.lookup sid with
  | none => (disconnectSock st sid, [])
  | some u =>
      ({ disconnectSock st sid with
         presence := st.presence.setOffline u.userId sid now },
       [⟨EventPayload.presenceUpdate u.userId "offline",
         st.conns.filter (fun c => c != sid)⟩])

/-- Socket ids currently subscribed to the room of a channel. -/
def roomMembers (st : GwState) (channelId : String) : List String :=
  (st.rooms.filter (fun p => p.2 == channelId)).map Prod.fst

/-- `channel:join`: subscribe the socket to the room (socket.io rooms are
sets, joining twice is idempotent) and acknowledge to the joiner only. -/
def joinChannel (st : GwState) (sid channelId : String) : GwState × List Emit :=
  ({ st with
     rooms := if (sid, channelId) ∈ st.rooms then st.rooms else (sid, channelId) :: st.rooms },
   [⟨EventPayload.channelJoined channelId, [sid]⟩])

/-- `channel:leave`: unsubscribe and acknowledge to the leaver only. -/
def leaveChannel (st : GwState) (sid channelId : String) : GwState × List Emit :=
  ({ st with rooms := st.rooms.filter (fun p => p != (sid, channelId)) },
   [⟨EventPayload.channelLeft channelId, [sid]⟩])

/-- `typing:start` / `typing:stop`: `client.to(room)` emits to every room
member except the sender.  The handler reads `client.data.user`; a
never-authenticated socket has none and the runtime error means nothing
is emitted. -/
def broadcastTyping (st : GwState) (sid channelId : String) (isTyping : Bool) :
    GwState × List Emit :=
  match st.users.lookup sid with
  | none => (st, [])
  | some u =>
      (st, [⟨EventPayload.typingUpdate channelId u.userId isTyping,
             (roomMembers st channelId).filter (fun c => c != sid)⟩])

/-- `message:send`: persist via `createMessage`, then `server.to(room)`
emits `message:new` to every subscriber of the room, sender included. -/
def sendMessage (st : GwState) (sid channelId content : String)
    (attachmentIds : Option (List String)) (messageId : String) (now : Nat) :
    GwState × List Emit :=
  match st.users.lookup sid with
  | none => (st, [])
  | some u =>
      let r := createMessage st.messagesDb messageId channelId u.userId content attachmentIds now
      ({ st with messagesDb := r.2 },
       [⟨EventPayload.messageNew r.1, roomMembers st channelId⟩])

/-! ## Auth service

`AuthService` (auth.service.ts) together with `UsersService`
(users.service.ts).  bcrypt (`hash`/`compare`) and the JWT signer are
external collaborators and appear as function parameters bundled in
`Crypto`; `NOW()` is the `now : Nat` argument and generated user uuids
are passed in. -/

structure UserRecord where
  id : String
  email : String
  passwordHash : String
  displayName : String
deriving DecidableEq, Repr

structure RefreshRow where
  userId : String
  tokenHash : String
  expiresAt : Nat
deriving DecidableEq, Repr

structure AuthState where
  users : List UserRecord
  refreshTokens : List RefreshRow
deriving DecidableEq, Repr

structure PublicUser where
  id : String
  email : String
  displayName : String
deriving DecidableEq, Repr

structure TokenResult where
  accessToken : String
  refreshToken : String
  user : PublicUser
deriving DecidableEq, Repr

inductive AuthError where
  | unauthorized (msg : String)
  | conflict (msg : String)
deriving DecidableEq, Repr

/-- The external collaborators of the auth service: the bcrypt hasher
(`hash` / `compare`, used for passwords and refresh tokens) and the JWT
signer (`signAccess` for the payload `{sub, email, displayName}`,
`signRefresh` for `{sub, type: refresh}` signed at a given time with a
7 day expiry). -/
structure Crypto where
  hash : String → String
  compare : String → String → Bool
  signAccess : String → String → String → String
  signRefresh : String → Nat → String

/-- `INTERVAL '7 days'` in seconds. -/
def sevenDays : Nat := 7 * 24 * 60 * 60

/-- `UsersService.findByEmail`: `SELECT ... WHERE email = $1`. -/
def findByEmail (st : AuthState) (email : String) : Option UserRecord :=
  st.users.find? (fun u => u.email == email)

/-- `UsersService.findById`: `SELECT ... WHERE id = $1`. -/
def findById (st : AuthState) (id : String) : Option UserRecord :=
  st.users.find? (fun u => u.id == id)

/-- `AuthService.issueTokens`: sign an access token and a refresh token,
store the bcrypt hash of the refresh token with a 7-day expiry, and
return both tokens with the public user. -/
def issueTokens (C : Crypto) (st : AuthState) (now : Nat)
    (userId email displayName : String) : TokenResult × AuthState :=
  let refreshToken := C.signRefresh userId now
  let tokenHash := C.hash refreshToken
  (⟨C.signAccess userId email displayName, refreshToken, ⟨userId, email, displayName⟩⟩,
   { st with refreshTokens := st.refreshTokens ++ [⟨userId, tokenHash, now + sevenDays⟩] })

/-- `AuthService.register`: conflict on an existing email, otherwise
create the user with the bcrypt password hash and issue tokens. -/
def register (C : Crypto) (st : AuthState) (now : Nat)
    (newUserId email password displayName : String) :
    Except AuthError (TokenResult × AuthState) :=
  match findByEmail st email with
  | some _ => .error (.conflict "Email already registered")
  | none =>
      let user : UserRecord := ⟨newUserId, email, C.hash password, displayName⟩
      .ok (issueTokens C { st with users := st.users ++ [user] } now
            user.id user.email user.displayName)

/-- `AuthService.validateUser`: unknown email or a failing bcrypt
comparison both reject with the same message. -/
def validateUser (C : Crypto) (st : AuthState) (email password : String) :
    Except AuthError UserRecord :=
  match findByEmail st email with
  | none => .error (.unauthorized "Invalid credentials")
  | some u =>
      if C.compare password u.passwordHash then .ok u
      else .error (.unauthorized "Invalid credentials")

/-- `AuthService.login`. -/
def login (C : Crypto) (st : AuthState) (now : Nat) (email password : String) :
    Except AuthError (TokenResult × AuthState) :=
  match validateUser C st email password with
  | .error e => .error e
  | .ok u => .ok (issueTokens C st now u.id u.email u.displayName)

/-- `AuthService.refresh`: select the non-expired refresh-token rows
(`expires_at > NOW()`), find the first whose stored hash bcrypt-matches
the presented token, reject when none matches or the row's user no
longer exists, otherwise issue fresh tokens for that user. -/
def refresh (C : Crypto) (st : AuthState) (now : Nat) (refreshToken : String) :
    Except AuthError (TokenResult × AuthState) :=
  let stored := st.refreshTokens.filter (fun r => decide (now < r.expiresAt))
  match stored.find? (fun r => C.compare refreshToken r.tokenHash) with
  | none => .error (.unauthorized "Invalid refresh token")
  | some row =>
      match findById st row.userId with
      | none => .error (.unauthorized "User not found")
      | some u => .ok (issueTokens C st now u.id u.email u.displayName)

/-- An event list delivers to a socket when some emitted event lists it
as a recipient. -/
def deliveredTo (events : List Emit) (c : String) : Prop :=
  ∃ e ∈ events, c ∈ e.recipients

instance (events : List Emit) (c : String) : Decidable (deliveredTo events c) :=
  inferInstanceAs (Decidable (∃ e ∈ events, c ∈ e.recipients))

/-- Every stored refresh-token row references an existing user.  This
holds in every reachable state: rows are only inserted by `issueTokens`,
always for a user present in the `users` table, and users are never
deleted. -/
abbrev UsersExist (st : AuthState) : Prop :=
  ∀ row ∈ st.refreshTokens, ∃ u ∈ st.users, u.id = row.userId

/-- Every stored hash originates from hashing a refresh token signed for
the row's own user.  Holds in every reachable state for the same reason
as `UsersExist`. -/
abbrev HashOrigin (C : Crypto) (st : AuthState) : Prop :=
  ∀ row ∈ st.refreshTokens, ∃ n : Nat, row.tokenHash = C.hash (C.signRefresh row.userId n)

/-- Contract of the external collaborators: bcrypt verifies its own
hashes and has no spurious matches, and refresh tokens signed for
different subjects differ. -/
abbrev GoodCrypto (C : Crypto) : Prop :=
  (∀ s, C.compare s (C.hash s) = true)
  ∧ (∀ t s, C.compare t (C.hash s) = true → t = s)
  ∧ (∀ a n b m, C.signRefresh a n = C.signRefresh b m → a = b)

/-- The round-trip property of a token-issuing result: a stored row
matches the returned refresh token with a 7-day expiry, and an immediate
`refresh` with that token succeeds for the same user. -/
abbrev RoundTrip (C : Crypto) (now : Nat) (res : TokenResult) (st' : AuthState) : Prop :=
  (∃ row ∈ st'.refreshTokens,
      C.compare res.refreshToken row.tokenHash = true ∧ row.expiresAt = now + sevenDays)
  ∧ ∃ (r2 : TokenResult) (st2 : AuthState),
      refresh C st' now res.refreshToken = Except.ok (r2, st2) ∧ r2.user = res.user

/-- A concrete instantiation of the external crypto collaborators, used
to evaluate the auth theorems on closed inputs. -/
def cryptoW : Crypto :=
  ⟨id, fun t h => t == h, fun a b c => a ++ b ++ c, fun u _ => u⟩

/-! ## Supporting lemmas -/

theorem lookup_setKey_self (m : PresenceState) (k : String) (r : PresenceRec) :
    (setKey m k r).lookup k = some r := by
  induction m with
  | nil => simp [setKey, List.lookup]
  | cons p t ih =>
      obtain ⟨k', r'⟩ := p
      by_cases h : k' = k
      · simp [setKey, h, List.lookup]
      · simp only [setKey, if_neg h, List.lookup]
        have hne : (k == k') = false := by
          exact beq_eq_false_iff_ne.mpr (Ne.symm h)
        rw [hne]
        exact ih

theorem lookup_filter_out {β : Type} (l : List (String × β)) (sid : String) :
    (l.filter (fun p => p.1 != sid)).lookup sid = none := by
  induction l with
  | nil => simp [List.lookup]
  | cons p t ih =>
      by_cases h : p.1 = sid
      · simpa [List.filter, h] using ih
      · have hkeep : (p.1 != sid) = true := bne_iff_ne.mpr h
        have hne : (sid == p.1) = false := beq_eq_false_iff_ne.mpr (Ne.symm h)
        simp only [List.filter, hkeep, List.lookup, hne]
        exact ih

theorem mem_roomMembers (st : GwState) (ch c : String) :
    c ∈ roomMembers st ch ↔ (c, ch) ∈ st.rooms := by
  simp only [roomMembers, List.mem_map, List.mem_filter, beq_iff_eq]
  constructor
  · rintro ⟨⟨a, b⟩, ⟨hmem, hb⟩, ha⟩
    cases ha
    cases hb
    exact hmem
  · intro h
    exact ⟨(c, ch), ⟨h, rfl⟩, rfl⟩

theorem mem_jsSetDedup : ∀ (l : List String) (x : String),
    x ∈ jsSetDedup l ↔ x ∈ l := by
  intro l
  induction l using jsSetDedup.induct with
  | case1 => simp [jsSetDedup]
  | case2 y ys ih =>
      intro x
      rw [jsSetDedup]
      by_cases hxy : x = y
      · simp [hxy]
      · simp only [List.mem_cons, hxy, false_or, ih, List.mem_filter, bne_iff_ne]
        exact ⟨fun h => h.1, fun h => ⟨h, hxy⟩⟩

theorem nodup_jsSetDedup : ∀ l : List String, (jsSetDedup l).Nodup := by
  intro l
  induction l using jsSetDedup.induct with
  | case1 => simp [jsSetDedup]
  | case2 y ys ih =>
      rw [jsSetDedup]
      refine List.nodup_cons.mpr ⟨?_, ih⟩
      intro hmem
      rw [mem_jsSetDedup] at hmem
      have := (List.mem_filter.mp hmem).2
      simp at this

theorem mem_insertDesc (m x : Message) (l : List Message) :
    x ∈ insertDesc m l ↔ x = m ∨ x ∈ l := by
  induction l with
  | nil => simp [insertDesc]
  | cons y ys ih =>
      by_cases h : y.createdAt ≤ m.createdAt
      · simp [insertDesc, h]
      · simp only [insertDesc, if_neg h, List.mem_cons, ih]
        tauto

theorem mem_sortByCreatedAtDesc (x : Message) : ∀ l : List Message,
    x ∈ sortByCreatedAtDesc l ↔ x ∈ l := by
  intro l
  induction l with
  | nil => simp [sortByCreatedAtDesc]
  | cons y ys ih =>
      simp [sortByCreatedAtDesc, mem_insertDesc, ih]

theorem pairwise_insertDesc (m : Message) (l : List Message)
    (hl : l.Pairwise (fun a b => b.createdAt ≤ a.createdAt)) :
    (insertDesc m l).Pairwise (fun a b => b.createdAt ≤ a.createdAt) := by
  induction l with
  | nil => simp [insertDesc]
  | cons y ys ih =>
      rcases List.pairwise_cons.mp hl with ⟨hy, hys⟩
      by_cases h : y.createdAt ≤ m.createdAt
      · rw [insertDesc, if_pos h]
        refine List.pairwise_cons.mpr ⟨?_, hl⟩
        intro b hb
        rcases List.mem_cons.mp hb with rfl | hb
        · exact h
        · exact le_trans (hy b hb) h
      · rw [insertDesc, if_neg h]
        refine List.pairwise_cons.mpr ⟨?_, ih hys⟩
        intro b hb
        rcases (mem_insertDesc m b ys).mp hb with rfl | hb
        · exact Nat.le_of_lt (Nat.lt_of_not_le h)
        · exact hy b hb

theorem pairwise_sortByCreatedAtDesc : ∀ l : List Message,
    (sortByCreatedAtDesc l).Pairwise (fun a b => b.createdAt ≤ a.createdAt) := by
  intro l
  induction l with
  | nil => simp [sortByCreatedAtDesc]
  | cons y ys ih => exact pairwise_insertDesc y _ ih

theorem find?_id_eq_of_mem (u : UserRecord) : ∀ l : List UserRecord,
    u ∈ l → (l.map UserRecord.id).Nodup →
    l.find? (fun w => w.id == u.id) = some u := by
  intro l
  induction l with
  | nil => intro hmem; cases hmem
  | cons v t ih =>
      intro hmem hnd
      simp only [List.map, List.nodup_cons] at hnd
      by_cases h : v.id = u.id
      · have hvu : v = u := by
          rcases List.mem_cons.mp hmem with rfl | hmem'
          · rfl
          · exact absurd (h ▸ List.mem_map_of_mem UserRecord.id hmem') hnd.1
        simp [List.find?, hvu]
      · have hf : (v.id == u.id) = false := beq_eq_false_iff_ne.mpr h
        rcases List.mem_cons.mp hmem with rfl | hmem'
        · exact absurd rfl h
        · simp only [List.find?, hf]
          exact ih hmem' hnd.2

theorem findById_eq_of_mem (st : AuthState) (u : UserRecord)
    (hmem : u ∈ st.users) (hnd : (st.users.map UserRecord.id).Nodup) :
    findById st u.id = some u :=
  find?_id_eq_of_mem u st.users hmem hnd

theorem issueTokens_roundTrip (C : Crypto) (st : AuthState) (now : Nat) (u : UserRecord)
    (hC : GoodCrypto C) (horig : HashOrigin C st) (hmem : u ∈ st.users)
    (hnd : (st.users.map UserRecord.id).Nodup) :
    RoundTrip C now (issueTokens C st now u.id u.email u.displayName).1
      (issueTokens C st now u.id u.email u.displayName).2 := by
  obtain ⟨hcmp, hsound, hinj⟩ := hC
  set t := C.signRefresh u.id now with ht
  set newRow : RefreshRow := ⟨u.id, C.hash t, now + sevenDays⟩ with hnr
  have hnewMem : newRow ∈ st.refreshTokens ++ [newRow] :=
    List.mem_append.mpr (Or.inr (List.mem_singleton.mpr rfl))
  constructor
  · exact ⟨newRow, hnewMem, hcmp t, rfl⟩
  · have hexp : decide (now < newRow.expiresAt) = true :=
      decide_eq_true (Nat.lt_add_of_pos_right (by decide))
    have hmemf : newRow ∈ (st.refreshTokens ++ [newRow]).filter
        (fun r => decide (now < r.expiresAt)) :=
      List.mem_filter.mpr ⟨hnewMem, hexp⟩
    have hsome : (((st.refreshTokens ++ [newRow]).filter
        (fun r => decide (now < r.expiresAt))).find?
        (fun r => C.compare t r.tokenHash)).isSome :=
      List.find?_isSome.mpr ⟨newRow, hmemf, hcmp t⟩
    cases hfind : ((st.refreshTokens ++ [newRow]).filter
        (fun r => decide (now < r.expiresAt))).find?
        (fun r => C.compare t r.tokenHash) with
    | none => rw [hfind] at hsome; cases hsome
    | some row0 =>
        have hp : C.compare t row0.tokenHash = true := by
          simpa using List.find?_some hfind
        have hmem0 : row0 ∈ st.refreshTokens ++ [newRow] :=
          (List.mem_filter.mp (List.mem_of_find?_eq_some hfind)).1
        have huid : row0.userId = u.id := by
          rcases List.mem_append.mp hmem0 with hold | hnew
          · obtain ⟨n, hn⟩ := horig row0 hold
            have heq : t = C.signRefresh row0.userId n := by
              apply hsound
              rw [← hn]
              exact hp
            have h2 : C.signRefresh u.id now = C.signRefresh row0.userId n := by
              rw [← ht]
              exact heq
            exact (hinj _ _ _ _ h2).symm
          · rw [List.mem_singleton.mp hnew]
        have hfu : findById { st with refreshTokens := st.refreshTokens ++ [newRow] }
            row0.userId = some u := by
          rw [huid]
          exact findById_eq_of_mem _ u hmem hnd
        refine ⟨(issueTokens C { st with refreshTokens := st.refreshTokens ++ [newRow] }
            now u.id u.email u.displayName).1,
          (issueTokens C { st with refreshTokens := st.refreshTokens ++ [newRow] }
            now u.id u.email u.displayName).2, ?_, rfl⟩
        simp only [refresh, issueTokens, hfind, hfu]

theorem issueTokens_invariants (C : Crypto) (st : AuthState) (now : Nat) (u : UserRecord)
    (hmem : u ∈ st.users) (hu : UsersExist st) (ho : HashOrigin C st) :
    UsersExist (issueTokens C st now u.id u.email u.displayName).2
    ∧ HashOrigin C (issueTokens C st now u.id u.email u.displayName).2 := by
  constructor
  · intro row hrow
    rcases List.mem_append.mp hrow with hold | hnew
    · exact hu row hold
    · rw [List.mem_singleton.mp hnew]
      exact ⟨u, hmem, rfl⟩
  · intro row hrow
    rcases List.mem_append.mp hrow with hold | hnew
    · exact ho row hold
    · rw [List.mem_singleton.mp hnew]
      exact ⟨now, rfl⟩

/-- The `UsersExist` and `HashOrigin` invariants hypothesised by the
refresh theorems hold in the empty initial state and are preserved by
every successful auth operation, so they hold in every reachable
state. -/
theorem invariants_reachable (C : Crypto) (st : AuthState) (now : Nat)
    (hu : UsersExist st) (ho : HashOrigin C st) :
    (UsersExist ⟨[], []⟩ ∧ HashOrigin C ⟨[], []⟩)
    ∧ (∀ (newUserId email password displayName : String) (res : TokenResult) (st' : AuthState),
        register C st now newUserId email password displayName = Except.ok (res, st') →
        UsersExist st' ∧ HashOrigin C st')
    ∧ (∀ (email password : String) (res : TokenResult) (st' : AuthState),
        login C st now email password = Except.ok (res, st') →
        UsersExist st' ∧ HashOrigin C st')
    ∧ (∀ (tok : String) (res : TokenResult) (st' : AuthState),
        refresh C st now tok = Except.ok (res, st') →
        UsersExist st' ∧ HashOrigin C st') := by
  refine ⟨⟨fun row h => absurd h (List.not_mem_nil row), fun row h => absurd h (List.not_mem_nil row)⟩,
    ?_, ?_, ?_⟩
  · intro newUserId email password displayName res st' hok
    cases hfe : findByEmail st email with
    | some w => simp [register, hfe] at hok
    | none =>
        simp only [register, hfe, Except.ok.injEq] at hok
        have hst : (issueTokens C
            { st with users := st.users ++ [(⟨newUserId, email, C.hash password, displayName⟩ : UserRecord)] }
            now newUserId email displayName).2 = st' := by
          rw [hok]
        rw [← hst]
        have hu1 : UsersExist { st with
            users := st.users ++ [(⟨newUserId, email, C.hash password, displayName⟩ : UserRecord)] } := by
          intro row hrow
          obtain ⟨w, hw, hwid⟩ := hu row hrow
          exact ⟨w, List.mem_append.mpr (Or.inl hw), hwid⟩
        exact issueTokens_invariants C _ now (⟨newUserId, email, C.hash password, displayName⟩ : UserRecord)
          (List.mem_append.mpr (Or.inr (List.mem_singleton.mpr rfl))) hu1 ho
  · intro email password res st' hok
    cases hfe : findByEmail st email with
    | none => simp [login, validateUser, hfe] at hok
    | some u =>
        cases hcmp : C.compare password u.passwordHash with
        | false => simp [login, validateUser, hfe, hcmp] at hok
        | true =>
            simp only [login, validateUser, hfe, hcmp, if_true, Except.ok.injEq] at hok
            have hst : (issueTokens C st now u.id u.email u.displayName).2 = st' := by
              rw [hok]
            rw [← hst]
            exact issueTokens_invariants C st now u (List.mem_of_find?_eq_some hfe) hu ho
  · intro tok res st' hok
    cases hfind : (st.refreshTokens.filter (fun r => decide (now < r.expiresAt))).find?
        (fun r => C.compare tok r.tokenHash) with
    | none => simp [refresh, hfind] at hok
    | some row =>
        cases hfu : findById st row.userId with
        | none => simp [refresh, hfind, hfu] at hok
        | some u =>
            simp only [refresh, hfind, hfu, Except.ok.injEq] at hok
            have hst : (issueTokens C st now u.id u.email u.displayName).2 = st' := by
              rw [hok]
            rw [← hst]
            exact issueTokens_invariants C st now u (List.mem_of_find?_eq_some hfu) hu ho

/-! ## Claims -/

/-- C1: stale-disconnect guard.  After `setOnline(u, A)`, `setOnline(u, B)`,
`setOffline(u, A)` with `A ≠ B`, `getPresence(u)` returns `"online"`.  In
general `setOffline(u, sid)` reads the stored owning connection id and is a
silent no-op (store unchanged) when no record exists or the stored id
differs from `sid`; only when the stored id equals `sid` does it change the
record to status `"offline"`. -/
theorem claim_C1 (m : PresenceState) (u A B : String) (now : Nat) (hAB : A ≠ B) :
    PresenceState.getPresence
      (PresenceState.setOffline
        (PresenceState.setOnline (PresenceState.setOnline m u A now) u B now) u A now)
      u now = "online"
    ∧ (∀ (m' : PresenceState) (sid : String) (t : Nat),
        readRec (m'.lookup u) t = none →
          PresenceState.setOffline m' u sid t = m')
    ∧ (∀ (m' : PresenceState) (sid : String) (t : Nat) (r : PresenceRec),
        readRec (m'.lookup u) t = some r → r.socketId ≠ sid →
          PresenceState.setOffline m' u sid t = m')
    ∧ (∀ (m' : PresenceState) (sid : String) (t : Nat) (r : PresenceRec),
        readRec (m'.lookup u) t = some r → r.socketId = sid →
          (PresenceState.setOffline m' u sid t).lookup u =
            some ⟨"offline", r.socketId, t + 60⟩) := by
  have h60 : ∀ n : Nat, n < n + 60 := fun n => Nat.lt_add_of_pos_right (by decide)
  refine ⟨?_, ?_, ?_, ?_⟩
  · simp [PresenceState.setOnline, PresenceState.setOffline, PresenceState.getPresence,
          lookup_setKey_self, readRec, h60, Ne.symm hAB]
  · intro m' sid t h
    simp [PresenceState.setOffline, h]
  · intro m' sid t r h hne
    simp [PresenceState.setOffline, h, hne]
  · intro m' sid t r h he
    simp [PresenceState.setOffline, h, he, lookup_setKey_self]

/-- C1 witness: the stale-disconnect scenario evaluated on a concrete
store, user and connection ids. -/
theorem claim_C1_witness :
    PresenceState.getPresence
      (PresenceState.setOffline
        (PresenceState.setOnline (PresenceState.setOnline [] "u" "A" 0) "u" "B" 0) "u" "A" 0)
      "u" 0 = "online" :=
  (claim_C1 [] "u" "A" "B" 0 (by decide)).1

/-- C7: presence expiry.  `setOnline` writes a record with TTL 60 (visible
exactly while `tq < t + 60`, `"offline"` afterwards with no further call);
an effective `setOffline` also refreshes the TTL to 60 seconds and the
status reads `"offline"`; a user with no record reads `"offline"`; and
immediately after a successful connection authentication `getPresence`
returns `"online"`. -/
theorem claim_C7 (m : PresenceState) (u sid : String) (t tq : Nat) :
    ((PresenceState.setOnline m u sid t).lookup u = some ⟨"online", sid, t + 60⟩)
    ∧ (PresenceState.getPresence (PresenceState.setOnline m u sid t) u tq
        = if tq < t + 60 then "online" else "offline")
    ∧ (∀ r : PresenceRec, readRec (m.lookup u) t = some r → r.socketId = sid →
        ((PresenceState.setOffline m u sid t).lookup u
            = some ⟨"offline", r.socketId, t + 60⟩
         ∧ ∀ tq2 : Nat, PresenceState.getPresence (PresenceState.setOffline m u sid t) u tq2
             = "offline"))
    ∧ (m.lookup u = none → PresenceState.getPresence m u tq = "offline")
    ∧ (∀ (st : GwState) (sid2 tok : String) (vrf : String → Option SocketUser)
         (uu : SocketUser) (n : Nat), vrf tok = some uu →
        PresenceState.getPresence (handleConnection st sid2 (some tok) vrf n).1.presence
          uu.userId n = "online") := by
  have h60 : ∀ n : Nat, n < n + 60 := fun n => Nat.lt_add_of_pos_right (by decide)
  refine ⟨?_, ?_, ?_, ?_, ?_⟩
  · simp [PresenceState.setOnline, lookup_setKey_self]
  · by_cases h : tq < t + 60
    · simp [PresenceState.setOnline, PresenceState.getPresence, lookup_setKey_self,
            readRec, h]
    · simp [PresenceState.setOnline, PresenceState.getPresence, lookup_setKey_self,
            readRec, h]
  · intro r hr hsid
    constructor
    · simp [PresenceState.setOffline, hr, hsid, lookup_setKey_self]
    · intro tq2
      have hs : PresenceState.setOffline m u sid t
          = setKey m u { status := "offline", socketId := r.socketId, expireAt := t + 60 } := by
        simp [PresenceState.setOffline, hr, hsid]
      rw [hs]
      by_cases h : tq2 < t + 60
      · simp [PresenceState.getPresence, lookup_setKey_self, readRec, h]
      · simp [PresenceState.getPresence, lookup_setKey_self, readRec, h]
  · intro h
    simp [PresenceState.getPresence, h, readRec]
  · intro st sid2 tok vrf uu n hv
    simp [handleConnection, hv, PresenceState.setOnline, PresenceState.getPresence,
          lookup_setKey_self, readRec, h60]

/-- C7 witness: a concrete successful authentication followed by an
immediate presence query returning `"online"`. -/
theorem claim_C7_witness :
    PresenceState.getPresence
      (handleConnection ⟨["s1"], [], [], [], ⟨[], []⟩⟩ "s1" (some "tok")
        (fun x => if x = "tok" then some ⟨"u1", "Alice"⟩ else none) 5).1.presence
      "u1" 5 = "online" :=
  (claim_C7 [] "u1" "s1" 0 0).2.2.2.2 ⟨["s1"], [], [], [], ⟨[], []⟩⟩ "s1" "tok"
    (fun x => if x = "tok" then some ⟨"u1", "Alice"⟩ else none) ⟨"u1", "Alice"⟩ 5
    (by decide)

/-- C3: connection-gatekeeper rejection is state-free.  With no handshake
token, or a token the verifier rejects, the connection is dropped and
nothing else happens: the handler result is exactly the transport
disconnect, the presence store is unchanged (no `setOnline`), no identity
is attached to the socket, no event is emitted, and the socket is no
longer connected. -/
theorem claim_C3 (st : GwState) (sid : String) (token : Option String)
    (vrf : String → Option SocketUser) (now : Nat)
    (hfail : token = none ∨ ∃ t, token = some t ∧ vrf t = none) :
    handleConnection st sid token vrf now = (disconnectSock st sid, [])
    ∧ (handleConnection st sid token vrf now).1.presence = st.presence
    ∧ (handleConnection st sid token vrf now).1.users.lookup sid = none
    ∧ (handleConnection st sid token vrf now).2 = []
    ∧ sid ∉ (handleConnection st sid token vrf now).1.conns := by
  have heq : handleConnection st sid token vrf now = (disconnectSock st sid, []) := by
    rcases hfail with rfl | ⟨t, rfl, hv⟩
    · rfl
    · simp [handleConnection, hv]
  refine ⟨heq, ?_, ?_, ?_, ?_⟩
  · rw [heq]
    simp [disconnectSock]
  · rw [heq]
    exact lookup_filter_out st.users sid
  · rw [heq]
  · rw [heq]
    intro hmem
    have := (List.mem_filter.mp hmem).2
    simp at this

/-- C3 witness: a tokenless connection attempt against a concrete state
emits nothing and leaves no identity. -/
theorem claim_C3_witness :
    (handleConnection ⟨["s1"], [], [], [], ⟨[], []⟩⟩ "s1" none (fun _ => none) 0).1.users.lookup
      "s1" = none
    ∧ (handleConnection ⟨["s1"], [], [], [], ⟨[], []⟩⟩ "s1" none (fun _ => none) 0).2 = [] := by
  have h := claim_C3 ⟨["s1"], [], [], [], ⟨[], []⟩⟩ "s1" none (fun _ => none) 0 (Or.inl rfl)
  exact ⟨h.2.2.1, h.2.2.2.1⟩

/-- C4: presence event lifecycle.  A successful authentication registers
the user online under this socket's id and emits one `presence:update
online` event to the connecting socket alone; disconnect of an
authenticated socket calls `setOffline` with that user id and socket id
and broadcasts one `presence:update offline` event exactly to the other
connected sockets; disconnect of a never-authenticated socket changes no
presence and emits nothing. -/
theorem claim_C4 (st : GwState) (sid : String) (now : Nat) :
    (∀ (tok : String) (vrf : String → Option SocketUser) (u : SocketUser),
       vrf tok = some u →
         ((handleConnection st sid (some tok) vrf now).1.presence
             = PresenceState.setOnline st.presence u.userId sid now
          ∧ (handleConnection st sid (some tok) vrf now).1.presence.lookup u.userId
             = some ⟨"online", sid, now + 60⟩
          ∧ (handleConnection st sid (some tok) vrf now).2
             = [⟨EventPayload.presenceUpdate u.userId "online", [sid]⟩]))
    ∧ (∀ u : SocketUser, st.users.lookup sid = some u →
         ((handleDisconnect st sid now).1.presence
             = PresenceState.setOffline st.presence u.userId sid now
          ∧ (handleDisconnect st sid now).2
             = [⟨EventPayload.presenceUpdate u.userId "offline",
                 st.conns.filter (fun c => c != sid)⟩]
          ∧ ∀ c : String, deliveredTo (handleDisconnect st sid now).2 c
              ↔ (c ∈ st.conns ∧ c ≠ sid)))
    ∧ (st.users.lookup sid = none →
         ((handleDisconnect st sid now).1.presence = st.presence
          ∧ (handleDisconnect st sid now).2 = [])) := by
  refine ⟨?_, ?_, ?_⟩
  · intro tok vrf u hv
    refine ⟨?_, ?_, ?_⟩
    · simp [handleConnection, hv]
    · simp [handleConnection, hv, PresenceState.setOnline, lookup_setKey_self]
    · simp [handleConnection, hv]
  · intro u hu
    refine ⟨?_, ?_, ?_⟩
    · simp [handleDisconnect, hu]
    · simp [handleDisconnect, hu]
    · intro c
      simp [handleDisconnect, hu, deliveredTo, List.mem_filter, bne_iff_ne]
  · intro hu
    exact ⟨by simp [handleDisconnect, hu, disconnectSock], by simp [handleDisconnect, hu]⟩

/-- C4 witness: disconnecting an authenticated socket in a two-socket
state broadcasts the offline update to the other socket only. -/
theorem claim_C4_witness :
    (handleDisconnect ⟨["s1", "s2"], [("s1", ⟨"u1", "Alice"⟩)], [], [], ⟨[], []⟩⟩ "s1" 0).2
      = [⟨EventPayload.presenceUpdate "u1" "offline", ["s2"]⟩]
    ∧ deliveredTo
        (handleDisconnect ⟨["s1", "s2"], [("s1", ⟨"u1", "Alice"⟩)], [], [], ⟨[], []⟩⟩ "s1" 0).2
        "s2" := by
  have h := (claim_C4 ⟨["s1", "s2"], [("s1", ⟨"u1", "Alice"⟩)], [], [], ⟨[], []⟩⟩ "s1" 0).2.1
    ⟨"u1", "Alice"⟩ (by decide)
  refine ⟨by simpa using h.2.1, ?_⟩
  exact (h.2.2 "s2").mpr (by decide)

/-- C2: broadcast targeting.  A typing-state event from an authenticated
socket is one `typing:update` event delivered exactly to the sockets
subscribed to the channel's room other than the sender; `message:send`
emits one `message:new` event delivered exactly to the sockets subscribed
to the room, the sender's socket included when subscribed; no
unsubscribed socket receives either event. -/
theorem claim_C2 (st : GwState) (sid channelId : String) (u : SocketUser)
    (hu : st.users.lookup sid = some u) :
    (∀ isTyping : Bool,
       (broadcastTyping st sid channelId isTyping).2
         = [⟨EventPayload.typingUpdate channelId u.userId isTyping,
             (roomMembers st channelId).filter (fun c => c != sid)⟩])
    ∧ (∀ (isTyping : Bool) (c : String),
        deliveredTo (broadcastTyping st sid channelId isTyping).2 c
          ↔ ((c, channelId) ∈ st.rooms ∧ c ≠ sid))
    ∧ (∀ (content mid : String) (att : Option (List String)) (now : Nat),
        (sendMessage st sid channelId content att mid now).2
          = [⟨EventPayload.messageNew
                (createMessage st.messagesDb mid channelId u.userId content att now).1,
              roomMembers st channelId⟩])
    ∧ (∀ (content mid : String) (att : Option (List String)) (now : Nat) (c : String),
        deliveredTo (sendMessage st sid channelId content att mid now).2 c
          ↔ (c, channelId) ∈ st.rooms)
    ∧ (∀ (content mid : String) (att : Option (List String)) (now : Nat),
        (sid, channelId) ∈ st.rooms →
          deliveredTo (sendMessage st sid channelId content att mid now).2 sid) := by
  have hmsg : ∀ (content mid : String) (att : Option (List String)) (now : Nat) (c : String),
      deliveredTo (sendMessage st sid channelId content att mid now).2 c
        ↔ (c, channelId) ∈ st.rooms := by
    intro content mid att now c
    simp [sendMessage, hu, deliveredTo, mem_roomMembers]
  refine ⟨?_, ?_, ?_, hmsg, ?_⟩
  · intro b
    simp [broadcastTyping, hu]
  · intro b c
    simp [broadcastTyping, hu, deliveredTo, List.mem_filter, bne_iff_ne, mem_roomMembers]
  · intro content mid att now
    simp [sendMessage, hu]
  · intro content mid att now h
    exact (hmsg content mid att now sid).mpr h

/-- C2 witness: in a room with two subscribed sockets, typing from one is
delivered to the other and not to the sender, while a new message is
delivered to both. -/
theorem claim_C2_witness :
    (deliveredTo
        (broadcastTyping
          ⟨["s1", "s2"], [("s1", ⟨"u1", "Alice"⟩)], [("s1", "ch"), ("s2", "ch")], [], ⟨[], []⟩⟩
          "s1" "ch" true).2 "s2"
      ∧ ¬ deliveredTo
        (broadcastTyping
          ⟨["s1", "s2"], [("s1", ⟨"u1", "Alice"⟩)], [("s1", "ch"), ("s2", "ch")], [], ⟨[], []⟩⟩
          "s1" "ch" true).2 "s1")
    ∧ deliveredTo
        (sendMessage
          ⟨["s1", "s2"], [("s1", ⟨"u1", "Alice"⟩)], [("s1", "ch"), ("s2", "ch")], [], ⟨[], []⟩⟩
          "s1" "ch" "hello" none "m1" 0).2 "s1" := by
  have h := claim_C2
    ⟨["s1", "s2"], [("s1", ⟨"u1", "Alice"⟩)], [("s1", "ch"), ("s2", "ch")], [], ⟨[], []⟩⟩
    "s1" "ch" ⟨"u1", "Alice"⟩ (by decide)
  refine ⟨⟨(h.2.1 true "s2").mpr (by decide), ?_⟩, ?_⟩
  · intro hcon
    exact absurd ((h.2.1 true "s1").mp hcon).2 (by decide)
  · exact h.2.2.2.2 "hello" "m1" none 0 (by decide)

/-- C5: listMessages pagination.  The result has at most `limit` rows, all
of the requested channel, all strictly before the cursor when one is
given, ordered newest-first by creation timestamp; the controller
defaults an absent `limit` to 50; and after creating `M1`, `M2`, `M3` in
that order, `limit=2` returns `[M3, M2]` while `limit=2,
before=M3.createdAt` returns `[M2, M1]`. -/
theorem claim_C5 (db : MessagesDb) (channelId : String) (limit : Nat)
    (before : Option Nat) :
    (listMessages db channelId limit before).length ≤ limit
    ∧ (∀ m ∈ listMessages db channelId limit before, m.channelId = channelId)
    ∧ (∀ b : Nat, before = some b →
        ∀ m ∈ listMessages db channelId limit (some b), m.createdAt < b)
    ∧ (listMessages db channelId limit before).Pairwise
        (fun a b => b.createdAt ≤ a.createdAt)
    ∧ listMessagesEndpoint db channelId none before = listMessages db channelId 50 before
    ∧ (∀ m1 m2 m3 : Message,
        db.messages = [m1, m2, m3] →
        m1.channelId = channelId → m2.channelId = channelId → m3.channelId = channelId →
        m1.createdAt < m2.createdAt → m2.createdAt < m3.createdAt →
        (listMessages db channelId 2 none = [m3, m2]
         ∧ listMessages db channelId 2 (some m3.createdAt) = [m2, m1])) := by
  have hsub : ∀ (lim : Nat) (bef : Option Nat) (m : Message),
      m ∈ listMessages db channelId lim bef →
      m ∈ db.messages.filter (listMessagesFilter channelId bef) := by
    intro lim bef m hm
    have h1 := List.mem_of_mem_take hm
    exact (mem_sortByCreatedAtDesc m _).mp h1
  refine ⟨?_, ?_, ?_, ?_, rfl, ?_⟩
  · exact List.length_take_le _ _
  · intro m hm
    have h2 := (List.mem_filter.mp (hsub limit before m hm)).2
    have h3 := (Bool.and_eq_true _ _).mp h2
    exact beq_iff_eq.mp h3.1
  · intro b hb m hm
    have h2 := (List.mem_filter.mp (hsub limit (some b) m hm)).2
    have h3 := (Bool.and_eq_true _ _).mp h2
    exact of_decide_eq_true h3.2
  · exact (pairwise_sortByCreatedAtDesc _).sublist (List.take_sublist _ _)
  · intro m1 m2 m3 hdb h1 h2 h3 h12 h23
    have n21 : ¬ m2.createdAt ≤ m1.createdAt := Nat.not_le.mpr h12
    have n32 : ¬ m3.createdAt ≤ m2.createdAt := Nat.not_le.mpr h23
    have n31 : ¬ m3.createdAt ≤ m1.createdAt := Nat.not_le.mpr (lt_trans h12 h23)
    constructor
    · unfold listMessages
      rw [hdb]
      simp [listMessagesFilter, h1, h2, h3, sortByCreatedAtDesc, insertDesc, n21, n32, n31]
    · unfold listMessages
      rw [hdb]
      simp [listMessagesFilter, h1, h2, h3, sortByCreatedAtDesc, insertDesc, n21,
            h23, lt_trans h12 h23, lt_irrefl]

/-- C5 witness: the three-message scenario on a concrete table. -/
theorem claim_C5_witness :
    listMessages ⟨[⟨"m1", "ch", "s", "a", 1⟩, ⟨"m2", "ch", "s", "b", 2⟩,
        ⟨"m3", "ch", "s", "c", 3⟩], []⟩ "ch" 2 none
      = [⟨"m3", "ch", "s", "c", 3⟩, ⟨"m2", "ch", "s", "b", 2⟩]
    ∧ listMessages ⟨[⟨"m1", "ch", "s", "a", 1⟩, ⟨"m2", "ch", "s", "b", 2⟩,
        ⟨"m3", "ch", "s", "c", 3⟩], []⟩ "ch" 2 (some 3)
      = [⟨"m2", "ch", "s", "b", 2⟩, ⟨"m1", "ch", "s", "a", 1⟩] :=
  (claim_C5 ⟨[⟨"m1", "ch", "s", "a", 1⟩, ⟨"m2", "ch", "s", "b", 2⟩,
      ⟨"m3", "ch", "s", "c", 3⟩], []⟩ "ch" 2 none).2.2.2.2.2
    ⟨"m1", "ch", "s", "a", 1⟩ ⟨"m2", "ch", "s", "b", 2⟩ ⟨"m3", "ch", "s", "c", 3⟩
    rfl rfl rfl rfl (by decide) (by decide)

/-- C6: group-flag determination.  Creation by `u1` with member ids
`[u1, u2, u3]` (three distinct members) yields `isGroup = true`, with
`[u1, u2]` (two members) yields `isGroup = false`, and in general the
group flag is true exactly when the channel has more than two members. -/
theorem claim_C6 (u1 u2 u3 name chId : String) (db : ChannelsDb)
    (h12 : u1 ≠ u2) (h13 : u1 ≠ u3) (h23 : u2 ≠ u3) :
    (createChannelEndpoint db u1 name (some [u1, u2, u3]) chId).1.isGroup = true
    ∧ (createChannelEndpoint db u1 name (some [u1, u2]) chId).1.isGroup = false
    ∧ (∀ (db2 : ChannelsDb) (r name2 : String) (L : Option (List String)) (chId2 : String),
        ((createChannelEndpoint db2 r name2 L chId2).1.isGroup = true
          ↔ 2 < (createChannelEndpoint db2 r name2 L chId2).1.memberIds.length)) := by
  have b11 : (u1 != u1) = false := by simp
  have b21 : (u2 != u1) = true := bne_iff_ne.mpr (Ne.symm h12)
  have b31 : (u3 != u1) = true := bne_iff_ne.mpr (Ne.symm h13)
  have b32 : (u3 != u2) = true := bne_iff_ne.mpr (Ne.symm h23)
  refine ⟨?_, ?_, ?_⟩
  · have hm : jsSetDedup (u1 :: [u1, u2, u3]) = [u1, u2, u3] := by
      rw [jsSetDedup]
      simp only [List.filter, b11, b21, b31]
      rw [jsSetDedup]
      simp only [List.filter, b32]
      rw [jsSetDedup]
      simp only [List.filter]
      rw [jsSetDedup]
    simp [createChannelEndpoint, createChannel, hm]
  · have hm : jsSetDedup (u1 :: [u1, u2]) = [u1, u2] := by
      rw [jsSetDedup]
      simp only [List.filter, b11, b21]
      rw [jsSetDedup]
      simp only [List.filter]
      rw [jsSetDedup]
    simp [createChannelEndpoint, createChannel, hm]
  · intro db2 r name2 L chId2
    simp [createChannelEndpoint, createChannel, decide_eq_true_iff]

/-- C6 witness: the two scenarios at concrete user ids. -/
theorem claim_C6_witness :
    (createChannelEndpoint ⟨[], []⟩ "u1" "trip" (some ["u1", "u2", "u3"]) "c1").1.isGroup = true
    ∧ (createChannelEndpoint ⟨[], []⟩ "u1" "dm" (some ["u1", "u2"]) "c2").1.isGroup = false := by
  have h := claim_C6 "u1" "u2" "u3" "trip" "c1" ⟨[], []⟩ (by decide) (by decide) (by decide)
  have h2 := claim_C6 "u1" "u2" "u3" "dm" "c2" ⟨[], []⟩ (by decide) (by decide) (by decide)
  exact ⟨h.1, h2.2.1⟩

/-- C9: the channel-creation endpoint always includes the requester in
the member set and deduplicates member ids: the persisted member list is
duplicate-free, contains exactly the requester and the body's member
ids, the group flag is computed from the size of that deduplicated list,
and the persisted membership rows are exactly one row per resulting
member. -/
theorem claim_C9 (db : ChannelsDb) (r name : String) (L : Option (List String))
    (chId : String) :
    r ∈ (createChannelEndpoint db r name L chId).1.memberIds
    ∧ (createChannelEndpoint db r name L chId).1.memberIds.Nodup
    ∧ (∀ x : String, x ∈ (createChannelEndpoint db r name L chId).1.memberIds
        ↔ (x = r ∨ x ∈ L.getD []))
    ∧ ((createChannelEndpoint db r name L chId).1.isGroup
        = decide (2 < (createChannelEndpoint db r name L chId).1.memberIds.length))
    ∧ (∀ x : String, (chId, x) ∈ (createChannelEndpoint db r name L chId).2.channelMembers
        ↔ ((chId, x) ∈ db.channelMembers
            ∨ x ∈ (createChannelEndpoint db r name L chId).1.memberIds)) := by
  refine ⟨?_, ?_, ?_, ?_, ?_⟩
  · simp only [createChannelEndpoint, createChannel]
    exact (mem_jsSetDedup _ r).mpr (List.mem_cons_self r _)
  · simp only [createChannelEndpoint, createChannel]
    exact nodup_jsSetDedup _
  · intro x
    simp only [createChannelEndpoint, createChannel]
    rw [mem_jsSetDedup]
    exact List.mem_cons
  · simp [createChannelEndpoint, createChannel]
  · intro x
    simp only [createChannelEndpoint, createChannel]
    simp [List.mem_append, List.mem_map]

/-- C9 witness: a requester absent from the body list is added, and a
duplicated body entry is stored once. -/
theorem claim_C9_witness :
    "r" ∈ (createChannelEndpoint ⟨[], []⟩ "r" "c" (some ["a", "a", "b"]) "c9").1.memberIds
    ∧ (createChannelEndpoint ⟨[], []⟩ "r" "c" (some ["a", "a", "b"]) "c9").1.memberIds.Nodup := by
  have h := claim_C9 ⟨[], []⟩ "r" "c" (some ["a", "a", "b"]) "c9"
  exact ⟨h.1, h.2.1⟩

/-- C8: refresh-token matching.  In any state where stored rows reference
existing users (true of every reachable state), the refresh operation
succeeds exactly when the presented token bcrypt-matches at least one
stored non-expired hash — matching scans all non-expired rows — and
otherwise fails with the `Invalid refresh token` authentication
rejection. -/
theorem claim_C8 (C : Crypto) (st : AuthState) (now : Nat) (tok : String)
    (hinv : UsersExist st) :
    ((∃ row ∈ st.refreshTokens, now < row.expiresAt ∧ C.compare tok row.tokenHash = true)
       ↔ ∃ out : TokenResult × AuthState, refresh C st now tok = Except.ok out)
    ∧ (¬ (∃ row ∈ st.refreshTokens, now < row.expiresAt ∧ C.compare tok row.tokenHash = true)
        → refresh C st now tok
            = Except.error (AuthError.unauthorized "Invalid refresh token")) := by
  have hiff : (∃ row ∈ st.refreshTokens, now < row.expiresAt ∧ C.compare tok row.tokenHash = true)
      ↔ ∃ row ∈ st.refreshTokens.filter (fun r => decide (now < r.expiresAt)),
          C.compare tok row.tokenHash = true := by
    constructor
    · rintro ⟨row, hm, hlt, hc⟩
      exact ⟨row, List.mem_filter.mpr ⟨hm, decide_eq_true hlt⟩, hc⟩
    · rintro ⟨row, hm, hc⟩
      rcases List.mem_filter.mp hm with ⟨hm2, hd⟩
      exact ⟨row, hm2, of_decide_eq_true hd, hc⟩
  cases hfind : (st.refreshTokens.filter (fun r => decide (now < r.expiresAt))).find?
      (fun r => C.compare tok r.tokenHash) with
  | none =>
      have hno : ¬ ∃ row ∈ st.refreshTokens.filter (fun r => decide (now < r.expiresAt)),
          C.compare tok row.tokenHash = true := by
        intro hex
        have h2 := List.find?_isSome.mpr hex
        rw [hfind] at h2
        cases h2
      have heq : refresh C st now tok
          = Except.error (AuthError.unauthorized "Invalid refresh token") := by
        simp only [refresh, hfind]
      refine ⟨⟨fun hex => absurd (hiff.mp hex) hno, ?_⟩, fun _ => heq⟩
      rintro ⟨out, hout⟩
      rw [heq] at hout
      cases hout
  | some row =>
      have hp : C.compare tok row.tokenHash = true := by
        simpa using List.find?_some hfind
      have hmemf := List.mem_of_find?_eq_some hfind
      have hmem2 : row ∈ st.refreshTokens := (List.mem_filter.mp hmemf).1
      obtain ⟨w, hw, hwid⟩ := hinv row hmem2
      have hfu : (findById st row.userId).isSome := by
        unfold findById
        exact List.find?_isSome.mpr ⟨w, hw, beq_iff_eq.mpr hwid⟩
      cases hfu2 : findById st row.userId with
      | none => rw [hfu2] at hfu; cases hfu
      | some w2 =>
          have heq : refresh C st now tok
              = Except.ok (issueTokens C st now w2.id w2.email w2.displayName) := by
            simp only [refresh, hfind, hfu2]
          have hex : ∃ row2 ∈ st.refreshTokens,
              now < row2.expiresAt ∧ C.compare tok row2.tokenHash = true :=
            hiff.mpr ⟨row, hmemf, hp⟩
          exact ⟨⟨fun _ => ⟨_, heq⟩, fun _ => hex⟩, fun hn => absurd hex hn⟩

/-- C8 witness: one matching non-expired row makes refresh succeed, and
the same state with a non-matching token yields the rejection. -/
theorem claim_C8_witness :
    (∃ out : TokenResult × AuthState,
        refresh cryptoW ⟨[⟨"u1", "a@x.com", "pw", "Alice"⟩], [⟨"u1", "tok1", 100⟩]⟩ 0 "tok1"
          = Except.ok out)
    ∧ refresh cryptoW ⟨[⟨"u1", "a@x.com", "pw", "Alice"⟩], [⟨"u1", "tok1", 100⟩]⟩ 0 "bad"
        = Except.error (AuthError.unauthorized "Invalid refresh token") := by
  have h1 := claim_C8 cryptoW ⟨[⟨"u1", "a@x.com", "pw", "Alice"⟩], [⟨"u1", "tok1", 100⟩]⟩
    0 "tok1" (by decide)
  have h2 := claim_C8 cryptoW ⟨[⟨"u1", "a@x.com", "pw", "Alice"⟩], [⟨"u1", "tok1", 100⟩]⟩
    0 "bad" (by decide)
  refine ⟨h1.1.mp ⟨⟨"u1", "tok1", 100⟩, by decide, by decide, by decide⟩, h2.2 ?_⟩
  rintro ⟨row, hm, hlt, hc⟩
  have : row = ⟨"u1", "tok1", 100⟩ := by
    simpa using hm
  rw [this] at hc
  exact absurd hc (by decide)

/-- C10: issued-token round trip.  Under the crypto collaborators'
contract and in any reachable state (stored hashes originate from their
own user's tokens, user ids are unique), every successful register,
login, or refresh stores a row whose hash compare-matches the returned
refresh token with an expiry 7 days ahead, and an immediate refresh with
that token succeeds and issues tokens for the same user. -/
theorem claim_C10 (C : Crypto) (st : AuthState) (now : Nat)
    (hC : GoodCrypto C) (horig : HashOrigin C st)
    (hnd : (st.users.map UserRecord.id).Nodup) :
    (∀ (newUserId email password displayName : String) (res : TokenResult) (st' : AuthState),
        newUserId ∉ st.users.map UserRecord.id →
        register C st now newUserId email password displayName = Except.ok (res, st') →
        RoundTrip C now res st')
    ∧ (∀ (email password : String) (res : TokenResult) (st' : AuthState),
        login C st now email password = Except.ok (res, st') → RoundTrip C now res st')
    ∧ (∀ (tok : String) (res : TokenResult) (st' : AuthState),
        refresh C st now tok = Except.ok (res, st') → RoundTrip C now res st') := by
  refine ⟨?_, ?_, ?_⟩
  · intro newUserId email password displayName res st' hfresh hok
    cases hfe : findByEmail st email with
    | some w =>
        simp [register, hfe] at hok
    | none =>
        simp only [register, hfe, Except.ok.injEq] at hok
        have hres : (issueTokens C
            { st with users := st.users ++ [⟨newUserId, email, C.hash password, displayName⟩] }
            now newUserId email displayName).1 = res := by
          rw [hok]
        have hst : (issueTokens C
            { st with users := st.users ++ [⟨newUserId, email, C.hash password, displayName⟩] }
            now newUserId email displayName).2 = st' := by
          rw [hok]
        rw [← hres, ← hst]
        have hnd2 : (((st.users ++ [(⟨newUserId, email, C.hash password, displayName⟩ : UserRecord)]).map
            UserRecord.id)).Nodup := by
          rw [List.map_append]
          refine List.nodup_append.mpr ⟨hnd, List.nodup_singleton _, ?_⟩
          intro a ha ha2
          rw [List.map_singleton, List.mem_singleton] at ha2
          rw [ha2] at ha
          exact hfresh ha
        exact issueTokens_roundTrip C _ now (⟨newUserId, email, C.hash password, displayName⟩ : UserRecord)
          hC horig (List.mem_append.mpr (Or.inr (List.mem_singleton.mpr rfl))) hnd2
  · intro email password res st' hok
    cases hfe : findByEmail st email with
    | none =>
        simp [login, validateUser, hfe] at hok
    | some u =>
        cases hcmp : C.compare password u.passwordHash with
        | false =>
            simp [login, validateUser, hfe, hcmp] at hok
        | true =>
            simp only [login, validateUser, hfe, hcmp, if_true, Except.ok.injEq] at hok
            have hmem : u ∈ st.users := List.mem_of_find?_eq_some hfe
            have hres : (issueTokens C st now u.id u.email u.displayName).1 = res := by
              rw [hok]
            have hst : (issueTokens C st now u.id u.email u.displayName).2 = st' := by
              rw [hok]
            rw [← hres, ← hst]
            exact issueTokens_roundTrip C st now u hC horig hmem hnd
  · intro tok res st' hok
    cases hfind : (st.refreshTokens.filter (fun r => decide (now < r.expiresAt))).find?
        (fun r => C.compare tok r.tokenHash) with
    | none =>
        simp [refresh, hfind] at hok
    | some row =>
        cases hfu : findById st row.userId with
        | none =>
            simp [refresh, hfind, hfu] at hok
        | some u =>
            simp only [refresh, hfind, hfu, Except.ok.injEq] at hok
            have hmem : u ∈ st.users := List.mem_of_find?_eq_some hfu
            have hres : (issueTokens C st now u.id u.email u.displayName).1 = res := by
              rw [hok]
            have hst : (issueTokens C st now u.id u.email u.displayName).2 = st' := by
              rw [hok]
            rw [← hres, ← hst]
            exact issueTokens_roundTrip C st now u hC horig hmem hnd

/-- C10 witness: a concrete register in the empty state, followed by an
immediate refresh with the returned token. -/
theorem claim_C10_witness :
    ∃ (res : TokenResult) (st' : AuthState),
      register cryptoW ⟨[], []⟩ 0 "uid1" "a@x.com" "hunter2!" "Alice" = Except.ok (res, st')
      ∧ RoundTrip cryptoW 0 res st' := by
  refine ⟨_, _, rfl, ?_⟩
  exact (claim_C10 cryptoW ⟨[], []⟩ 0
      ⟨fun s => beq_self_eq_true s, fun t s h => eq_of_beq h, fun a n b m h => h⟩
      (by intro row h; cases h) (by simp)).1
    "uid1" "a@x.com" "hunter2!" "Alice" _ _ (by simp) rfl

end LightningServer
